import Mathlib

/-!
Shallow embedding of the pymw master-worker framework
(`pymw/pymw.py` and `pymw/interfaces/condor.py`).

Python exception objects are modelled by the inductive `PyErr`, one
constructor per exception class that the embedded code can raise or
store.  Pickled payloads are modelled as `String` blobs.  File-system
effects (opening the output file, running `condor_submit`) are passed
in as explicit parameters describing the outcome the environment
produced, so every function stays pure and executable.
-/

namespace PyMW

/-- Python exception values, one constructor per class used by the code:
`TaskException` (pymw.py line 83), `InterfaceException` (line 90), plain
`Exception` objects built by backends such as the Condor interface, and
the interpreter-level `AttributeError` that attribute access on `None`
produces. -/
inductive PyErr where
  | taskException (msg : String)
  | interfaceException (msg : String) (detail : String)
  | genericException (msg : String)
  | attributeError (msg : String)
  deriving DecidableEq, Repr

/-- `PyMW_Task` (pymw.py lines 101-193): name, executable reference,
pickled input and output blobs, the stored error, and the one-shot
finish event (`_finish_event.isSet()` as a `Bool`). -/
structure PyMW_Task where
  task_name : String
  executable : String
  input_data : Option String
  output_data : Option String
  error : Option PyErr
  finished : Bool
  deriving DecidableEq, Repr

/-- Task construction inside `submit_task` (pymw.py line 272): a fresh
task starts with no output, no error and an unset finish event. -/
def mk_task (task_name executable : String) (input_data : Option String) : PyMW_Task :=
  { task_name := task_name, executable := executable, input_data := input_data,
    output_data := none, error := none, finished := false }

/-- `PyMW_Task.task_finished` (pymw.py lines 143-161).  `task_err` is the
argument supplied by the interface; `file_read` is the outcome of
`open(self._output_arg); Unpickler(...).load()` — `some blob` when the
file was read, `none` when the attempt raised `OSError`/`IOError`
(the `except: pass` branches).  The code stores the error, overwrites
the output only when the read succeeded, and sets the finish event
unconditionally. -/
def task_finished (t : PyMW_Task) (task_err : Option PyErr) (file_read : Option String) :
    PyMW_Task :=
  { t with
    error := task_err,
    output_data := match file_read with
      | some d => some d
      | none => t.output_data,
    finished := true }

/-! ## `_SyncList` (pymw.py lines 39-81), sequential view

`append` pushes at the end of the Python list and releases the
semaphore; `wait_pop` acquires the semaphore and calls `list.pop()`,
which removes the LAST element; the `except` branch returns `None`. -/

/-- Sequential state of a `_SyncList`: the semaphore counter and the
underlying Python list. -/
structure SyncList (α : Type) where
  sem : Nat
  list : List α
  deriving DecidableEq, Repr

/-- `_SyncList.__init__`: empty list, semaphore at 0. -/
def SyncList.empty {α : Type} : SyncList α := { sem := 0, list := [] }

/-- `_SyncList.append` (lines 56-61): `self._list.append(item)` then
`self._sem.release()`. -/
def SyncList.append {α : Type} (s : SyncList α) (x : α) : SyncList α :=
  { sem := s.sem + 1, list := s.list ++ [x] }

/-- `_SyncList.wait_pop` (lines 63-73) once the semaphore acquire has
succeeded: `self._list.pop()` removes and returns the last element;
on an empty list the `except` branch returns `None`. -/
def SyncList.wait_pop {α : Type} (s : SyncList α) : Option α × SyncList α :=
  match s.list.getLast? with
  | some x => (some x, { sem := s.sem - 1, list := s.list.dropLast })
  | none => (none, { sem := s.sem - 1, list := s.list })

/-- `n` successive `wait_pop` calls, collecting the returned items
(`None` returns are dropped from the collected list). -/
def SyncList.popN {α : Type} : Nat → SyncList α → List α × SyncList α
  | 0, s => ([], s)
  | n + 1, s =>
    let r := s.wait_pop
    let rest := SyncList.popN n r.2
    (match r.1 with
     | some v => v :: rest.1
     | none => rest.1, rest.2)

/-- Appending a whole list of items in order. -/
def SyncList.appendAll {α : Type} (s : SyncList α) (l : List α) : SyncList α :=
  l.foldl SyncList.append s

/-! ## `_SyncList`, concurrent view (for the semaphore-safety claim)

Threads interact with a `_SyncList` through three atomic actions:
`append` (lock held: push + semaphore release), a successful
`self._sem.acquire(blocking=True)` (only enabled when the counter is
positive), and the locked `list.pop()` a thread performs after its
acquire.  `tokens` counts the threads that are between their acquire
and their pop; `appended` records every item ever passed to `append`. -/

/-- Global state of a `_SyncList` under concurrent use. -/
structure SyncState (α : Type) where
  sem : Nat
  tokens : Nat
  list : List α
  appended : List α
  deriving DecidableEq, Repr

/-- The freshly constructed `_SyncList`. -/
def SyncState.init {α : Type} : SyncState α :=
  { sem := 0, tokens := 0, list := [], appended := [] }

/-- One atomic action on the shared `_SyncList`.  `popOk` is the locked
`list.pop()` returning the last element `x`; `popEmpty` is the
`except` branch of `wait_pop` (pop attempted on an empty list). -/
inductive SyncStep {α : Type} : SyncState α → SyncState α → Prop
  | append (s : SyncState α) (x : α) :
      SyncStep s { sem := s.sem + 1, tokens := s.tokens,
                   list := s.list ++ [x], appended := s.appended ++ [x] }
  | acquire (s : SyncState α) (h : 0 < s.sem) :
      SyncStep s { s with sem := s.sem - 1, tokens := s.tokens + 1 }
  | popOk (s : SyncState α) (x : α) (h : 0 < s.tokens) (hx : s.list.getLast? = some x) :
      SyncStep s { s with tokens := s.tokens - 1, list := s.list.dropLast }
  | popEmpty (s : SyncState α) (h : 0 < s.tokens) (he : s.list = []) :
      SyncStep s { s with tokens := s.tokens - 1 }

/-- States reachable from the freshly constructed `_SyncList`. -/
def SyncReachable {α : Type} (s : SyncState α) : Prop :=
  Relation.ReflTransGen SyncStep SyncState.init s

/-! ## `PyMW_Master` and `PyMW_Scheduler` (pymw.py lines 195-315) -/

/-- State of a `PyMW_Master` together with its `PyMW_Scheduler`.
`queued_tasks` holds `Option` values because `PyMW_Scheduler._exit`
(line 221) appends the sentinel `None` to the queue;
`scheduler_finished` is the scheduler's `_finished` flag. -/
structure PyMW_Master where
  submitted_tasks : List PyMW_Task
  queued_tasks : List (Option PyMW_Task)
  use_state_records : Bool
  cur_task_num : Nat
  scheduler_finished : Bool
  deriving DecidableEq, Repr

/-- `PyMW_Master.__init__` (lines 225-253): empty registry and queue,
task counter 0, scheduler running. -/
def init_master (use_state_records : Bool) : PyMW_Master :=
  { submitted_tasks := [], queued_tasks := [], use_state_records := use_state_records,
    cur_task_num := 0, scheduler_finished := false }

/-- `PyMW_Scheduler._exit` (lines 218-221): set `_finished` and append
the `None` sentinel to the shared queue. -/
def scheduler_exit (m : PyMW_Master) : PyMW_Master :=
  { m with scheduler_finished := true, queued_tasks := m.queued_tasks ++ [none] }

/-- Python truthiness of the `new_task_name` argument: `None` and the
empty string are falsy (`if not new_task_name:`, line 261). -/
def name_truthy : Option String → Bool
  | none => false
  | some s => !(s == "")

/-- The body of `PyMW_Master.submit_task` after the task name has been
computed (lines 267-275): when `use_state_records` is set, scan the
registry and return the first task already carrying `task_name`;
otherwise build a fresh task and append it to both the submitted
registry and the dispatch queue. -/
def submit_with_name (m : PyMW_Master) (executable : String) (input_data : Option String)
    (task_name : String) : PyMW_Task × PyMW_Master :=
  match (if m.use_state_records then
      m.submitted_tasks.find? (fun t => t.task_name == task_name) else none) with
  | some t => (t, m)
  | none =>
    let new_task := mk_task task_name executable input_data
    (new_task,
     { m with submitted_tasks := m.submitted_tasks ++ [new_task],
              queued_tasks := m.queued_tasks ++ [some new_task] })

/-- `PyMW_Master.submit_task` (lines 255-275).  When `new_task_name` is
falsy the name is derived from the executable and the counter (which is
incremented); then the registry lookup / task creation of
`submit_with_name` runs. -/
def submit_task (m : PyMW_Master) (executable : String) (input_data : Option String)
    (new_task_name : Option String) : PyMW_Task × PyMW_Master :=
  if name_truthy new_task_name then
    submit_with_name m executable input_data (new_task_name.getD "")
  else
    submit_with_name { m with cur_task_num := m.cur_task_num + 1 } executable input_data
      (executable ++ "_" ++ toString m.cur_task_num)

/-- Outcome of a `get_result` call observed at one instant:
an exception propagating to the caller, the `(None, None)` return for
an unfinished task with `wait=False`, the thread blocking on the finish
event (`wait=True`, task unfinished), or a normal return. -/
inductive GetResultOutcome where
  | raised (e : PyErr)
  | not_finished
  | blocked
  | result (t : PyMW_Task) (out : Option String)
  deriving DecidableEq, Repr

/-- `PyMW_Master.get_result` (lines 277-294), evaluated on the current
state.  The checks follow the source order: membership test when `task`
is truthy; the `len(...) is 0` guard; then `task.is_task_finished(wait)`
— which, when `task` is `None`, is an attribute access on `None` and
raises `AttributeError`; then the stored error is re-raised after
signalling the scheduler to exit; otherwise the task and its output are
returned. -/
def get_result (m : PyMW_Master) (task : Option PyMW_Task) (wait : Bool) :
    GetResultOutcome × PyMW_Master :=
  match task with
  | some t =>
    if ¬ m.submitted_tasks.contains t then
      (.raised (.taskException "Task has not been submitted"), m)
    else if m.submitted_tasks.length = 0 then
      (.raised (.taskException "No tasks yet submitted"), m)
    else if ¬ t.finished then
      if wait then (.blocked, m) else (.not_finished, m)
    else
      match t.error with
      | some e => (.raised e, scheduler_exit m)
      | none => (.result t t.output_data, m)
  | none =>
    if m.submitted_tasks.length = 0 then
      (.raised (.taskException "No tasks yet submitted"), m)
    else
      (.raised (.attributeError "NoneType object has no attribute is_task_finished"), m)

/-- The list of task names currently in the Master's registry. -/
def registry_names (m : PyMW_Master) : List String :=
  m.submitted_tasks.map PyMW_Task.task_name

/-! ## `CondorInterface.execute_task` (condor.py lines 83-135) -/

/-- Outcome of the `subprocess.Popen` + `communicate()` call inside
`execute_task`: either the spawn raised `OSError` (submission tool
missing) or the process ran and produced this standard-error text. -/
inductive CondorSubmit where
  | tool_missing
  | completed (proc_stderr : String)
  deriving DecidableEq, Repr

/-- Tracked-job state of a `CondorInterface`: `_task_list` (the names of
the registered jobs) and the `_result_checker_running` flag. -/
structure CondorInterface where
  condor_submit_loc : String
  task_list : List String
  result_checker_running : Bool
  deriving DecidableEq, Repr

/-- `CondorInterface.execute_task` (lines 112-135), from the submission
attempt onward.  On `OSError` the `except` clause calls
`task.task_finished(Exception("Could not find task submission program ..."))`;
on a non-empty error stream it calls
`task.task_finished(Exception("condor_submit failed with error:..."))` and
returns; otherwise the task is appended to the tracked list and the
poller is started.  `file_read` is the output-file read attempt made
inside `task_finished`. -/
def execute_task (ci : CondorInterface) (t : PyMW_Task) (attempt : CondorSubmit)
    (file_read : Option String) : PyMW_Task × CondorInterface :=
  match attempt with
  | .tool_missing =>
    (task_finished t
      (some (.genericException ("Could not find task submission program " ++ ci.condor_submit_loc)))
      file_read, ci)
  | .completed proc_stderr =>
    if ¬ proc_stderr == "" then
      (task_finished t
        (some (.genericException ("condor_submit failed with error:\n" ++ proc_stderr)))
        file_read, ci)
    else
      (t, { ci with task_list := ci.task_list ++ [t.task_name],
                    result_checker_running := true })

/-- A submission attempt that failed: the tool was missing, or the
submission command wrote a non-empty error stream. -/
def submission_failed : CondorSubmit → Prop
  | .tool_missing => True
  | .completed proc_stderr => proc_stderr ≠ ""

instance : DecidablePred submission_failed := by
  intro a
  cases a with
  | tool_missing => exact isTrue trivial
  | completed s => exact (inferInstance : Decidable (s ≠ ""))

/-! # Concrete states used by witnesses and counterexamples -/

/-- A freshly created task, as built by `submit_task`. -/
def sample_task : PyMW_Task := mk_task "t0" "exe" none

/-- A task that finished with an error (the output-file read failed). -/
def sample_err_task : PyMW_Task :=
  task_finished (mk_task "t1" "exe" none) (some (.genericException "boom")) none

/-- A master whose registry holds one fresh task and one errored task. -/
def sample_master : PyMW_Master :=
  { submitted_tasks := [sample_task, sample_err_task],
    queued_tasks := [some sample_task, some sample_err_task],
    use_state_records := false, cur_task_num := 0, scheduler_finished := false }

/-! # Claims -/

/-- C9: `_SyncList.wait_pop` removes and returns the most recently
appended item (`list.pop()` pops the END of the Python list), so after
appending `a` then `b` the first `wait_pop` returns `b` and leaves `a`
behind. -/
theorem wait_pop_returns_last {α : Type} (q : SyncList α) (a b : α) :
    ((q.append a).append b).wait_pop.1 = some b ∧
    ((q.append a).append b).wait_pop.2.list = q.list ++ [a] := by
  simp [SyncList.append, SyncList.wait_pop, List.getLast?_concat]

/-- C1 (failing evaluation): with the `task` argument omitted and a
non-empty registry, `get_result` reaches `task.is_task_finished(wait)`
with `task = None` and dies with `AttributeError` — it neither returns
a `(task, output)` pair nor raises one of the defined `TaskException`
or `InterfaceException` errors, contradicting its own docstring
("If task is None, return the result of the next finished task"). -/
theorem get_result_none_attribute_error (m : PyMW_Master) (wait : Bool)
    (h : m.submitted_tasks.length ≠ 0) :
    (get_result m none wait).1 =
      .raised (.attributeError "NoneType object has no attribute is_task_finished") := by
  simp [get_result, h]

/-- Witness for `get_result_none_attribute_error`: one submitted task,
`get_result()` with the default arguments. -/
theorem get_result_none_attribute_error_witness :
    sample_master.submitted_tasks.length ≠ 0 ∧
    (get_result sample_master none true).1 =
      .raised (.attributeError "NoneType object has no attribute is_task_finished") :=
  ⟨by decide, get_result_none_attribute_error sample_master true (by decide)⟩

/-- C4: `get_result` on a task absent from the registry, or called
before any submission, raises the validation error
`TaskException(...)` — a constructor distinct from the
`InterfaceException` class and from the plain `Exception` objects that
backends store in failed tasks (the errors re-raised for task
failures). -/
theorem get_result_validation_error (m : PyMW_Master) (task : Option PyMW_Task) (wait : Bool)
    (h : (∃ t, task = some t ∧ t ∉ m.submitted_tasks) ∨ m.submitted_tasks = []) :
    ∃ msg, (get_result m task wait).1 = .raised (.taskException msg) ∧
      (∀ s d, PyErr.taskException msg ≠ .interfaceException s d) ∧
      (∀ s, PyErr.taskException msg ≠ .genericException s) ∧
      (∀ s, PyErr.taskException msg ≠ .attributeError s) := by
  have hdist : ∀ msg, (∀ s d, PyErr.taskException msg ≠ .interfaceException s d) ∧
      (∀ s, PyErr.taskException msg ≠ .genericException s) ∧
      (∀ s, PyErr.taskException msg ≠ .attributeError s) := by
    intro msg
    refine ⟨fun s d hh => ?_, fun s hh => ?_, fun s hh => ?_⟩ <;> cases hh
  rcases h with ⟨t, rfl, hc⟩ | hempty
  · exact ⟨"Task has not been submitted", by simp [get_result, hc], hdist _⟩
  · cases task with
    | none => exact ⟨"No tasks yet submitted", by simp [get_result, hempty], hdist _⟩
    | some t => exact ⟨"Task has not been submitted", by simp [get_result, hempty], hdist _⟩

/-- Witness for `get_result_validation_error`: a task that was never
submitted to a fresh master. -/
theorem get_result_validation_error_witness :
    ((∃ t, some sample_task = some t ∧
        t ∉ (init_master false).submitted_tasks) ∨
      (init_master false).submitted_tasks = []) ∧
    ∃ msg, (get_result (init_master false) (some sample_task) true).1 =
        .raised (.taskException msg) ∧
      (∀ s d, PyErr.taskException msg ≠ .interfaceException s d) ∧
      (∀ s, PyErr.taskException msg ≠ .genericException s) ∧
      (∀ s, PyErr.taskException msg ≠ .attributeError s) :=
  ⟨Or.inr rfl,
   get_result_validation_error (init_master false) (some sample_task) true (Or.inr rfl)⟩

/-- C7: for a submitted task that finished with an error, `get_result`
re-raises exactly the stored error at the point of the call and signals
the scheduler to exit (`_finished := True` plus the `None` sentinel on
the queue). -/
theorem get_result_error_failfast (m : PyMW_Master) (t : PyMW_Task) (e : PyErr) (wait : Bool)
    (hmem : t ∈ m.submitted_tasks) (hfin : t.finished = true) (herr : t.error = some e) :
    (get_result m (some t) wait).1 = .raised e ∧
    (get_result m (some t) wait).2.scheduler_finished = true ∧
    (get_result m (some t) wait).2.queued_tasks = m.queued_tasks ++ [none] := by
  have hnil : m.submitted_tasks ≠ [] := by
    intro h0
    rw [h0] at hmem
    exact (List.not_mem_nil t) hmem
  simp [get_result, hmem, hfin, herr, scheduler_exit, List.length_eq_zero, hnil]

/-- Witness for `get_result_error_failfast`: the errored sample task in
the sample master. -/
theorem get_result_error_failfast_witness :
    sample_err_task ∈ sample_master.submitted_tasks ∧
    sample_err_task.finished = true ∧
    sample_err_task.error = some (.genericException "boom") ∧
    (get_result sample_master (some sample_err_task) true).1 =
      .raised (.genericException "boom") ∧
    (get_result sample_master (some sample_err_task) true).2.scheduler_finished = true ∧
    (get_result sample_master (some sample_err_task) true).2.queued_tasks =
      sample_master.queued_tasks ++ [none] := by
  refine ⟨by decide, by decide, by decide, ?_⟩
  exact get_result_error_failfast sample_master sample_err_task
    (.genericException "boom") true (by decide) (by decide) (by decide)

/-- C6: in the Condor backend, a failed submission (missing
`condor_submit` tool, or a non-empty error stream from the submission
command) invokes `task.task_finished` with an error before
`execute_task` returns: the task carries an error, its finish event is
set, and it is not registered in the tracked-job list — it is never
left permanently queued. -/
theorem condor_submit_failure_finishes (ci : CondorInterface) (t : PyMW_Task)
    (attempt : CondorSubmit) (file_read : Option String)
    (h : submission_failed attempt) :
    (execute_task ci t attempt file_read).1.finished = true ∧
    (execute_task ci t attempt file_read).1.error ≠ none ∧
    (execute_task ci t attempt file_read).2 = ci := by
  cases attempt with
  | tool_missing => simp [execute_task, task_finished]
  | completed proc_stderr =>
    have hs : proc_stderr ≠ "" := h
    simp [execute_task, task_finished, hs]

/-- Witness for `condor_submit_failure_finishes`: a submission command
that wrote to its error stream. -/
theorem condor_submit_failure_finishes_witness :
    submission_failed (.completed "ERROR") ∧
    ((execute_task ⟨"condor_submit", [], false⟩ sample_task (.completed "ERROR") none).1.finished
        = true ∧
      (execute_task ⟨"condor_submit", [], false⟩ sample_task (.completed "ERROR") none).1.error
        ≠ none ∧
      (execute_task ⟨"condor_submit", [], false⟩ sample_task (.completed "ERROR") none).2 =
        ⟨"condor_submit", [], false⟩) :=
  ⟨by decide,
   condor_submit_failure_finishes ⟨"condor_submit", [], false⟩ sample_task
     (.completed "ERROR") none (by decide)⟩

/-- C5 (counterexample): `task_finished` stores the error and,
independently, reads the output file.  A task finished WITH an error
whose output file is readable ends up with both the error and the
output set, refuting "output is set if and only if the task finished
without error". -/
theorem task_finished_output_despite_error :
    (task_finished (mk_task "t2" "exe" none)
        (some (.genericException "boom")) (some "out")).finished = true ∧
    (task_finished (mk_task "t2" "exe" none)
        (some (.genericException "boom")) (some "out")).error =
      some (.genericException "boom") ∧
    (task_finished (mk_task "t2" "exe" none)
        (some (.genericException "boom")) (some "out")).output_data = some "out" := by
  refine ⟨rfl, rfl, rfl⟩

/-- C5 (amended): for a task with no prior output, after `task_finished`
the output is set if and only if the output-file read succeeded; the
stored error is exactly the interface-supplied one and is independent
of the output, and the finish event is set unconditionally. -/
theorem task_finished_output_iff_file_read (t : PyMW_Task) (task_err : Option PyErr)
    (file_read : Option String) (h : t.output_data = none) :
    ((task_finished t task_err file_read).output_data.isSome ↔ file_read.isSome) ∧
    (task_finished t task_err file_read).error = task_err ∧
    (task_finished t task_err file_read).finished = true := by
  cases file_read with
  | none => simp [task_finished, h]
  | some d => simp [task_finished]

/-- Witness for `task_finished_output_iff_file_read`: a fresh task and a
successful output read. -/
theorem task_finished_output_iff_file_read_witness :
    (mk_task "t3" "exe" none).output_data = none ∧
    (((task_finished (mk_task "t3" "exe" none) none (some "out")).output_data.isSome ↔
        (some "out" : Option String).isSome) ∧
      (task_finished (mk_task "t3" "exe" none) none (some "out")).error = none ∧
      (task_finished (mk_task "t3" "exe" none) none (some "out")).finished = true) :=
  ⟨rfl, task_finished_output_iff_file_read (mk_task "t3" "exe" none) none (some "out") rfl⟩

/-- C3: with durable state tracking enabled, `submit_task` with an
explicit (truthy) name already carried by a submitted task returns that
already-registered task and leaves the master's state — registry,
queue, counter — completely unchanged. -/
theorem submit_task_idempotent (m : PyMW_Master) (exe : String) (inp : Option String)
    (name : String) (hname : name ≠ "")
    (hrec : m.use_state_records = true)
    (hex : ∃ t ∈ m.submitted_tasks, t.task_name = name) :
    (submit_task m exe inp (some name)).2 = m ∧
    (submit_task m exe inp (some name)).1 ∈ m.submitted_tasks ∧
    (submit_task m exe inp (some name)).1.task_name = name := by
  have htruthy : name_truthy (some name) = true := by
    simp [name_truthy, hname]
  have hsome : (m.submitted_tasks.find? (fun t => t.task_name == name)).isSome := by
    rw [List.find?_isSome]
    obtain ⟨t, hmem, hn⟩ := hex
    exact ⟨t, hmem, by simp [hn]⟩
  obtain ⟨t0, hfind⟩ := Option.isSome_iff_exists.mp hsome
  have hmem0 : t0 ∈ m.submitted_tasks := List.mem_of_find?_eq_some hfind
  have hname0 : t0.task_name = name := by
    have := List.find?_some hfind
    simpa using this
  have hstep : submit_task m exe inp (some name) = (t0, m) := by
    simp only [submit_task, htruthy, if_true, submit_with_name, hrec, Option.getD_some]
    rw [hfind]
  rw [hstep]
  exact ⟨rfl, hmem0, hname0⟩

/-- Witness for `submit_task_idempotent`: resubmitting the name of the
sample task to a record-tracking master that already holds it. -/
theorem submit_task_idempotent_witness :
    ("t0" : String) ≠ "" ∧
    { sample_master with use_state_records := true }.use_state_records = true ∧
    (∃ t ∈ { sample_master with use_state_records := true }.submitted_tasks,
      t.task_name = "t0") ∧
    ((submit_task { sample_master with use_state_records := true } "exe" none
        (some "t0")).2 = { sample_master with use_state_records := true } ∧
      (submit_task { sample_master with use_state_records := true } "exe" none
        (some "t0")).1 ∈ { sample_master with use_state_records := true }.submitted_tasks ∧
      (submit_task { sample_master with use_state_records := true } "exe" none
        (some "t0")).1.task_name = "t0") :=
  ⟨by decide, rfl, ⟨sample_task, by decide, rfl⟩,
   submit_task_idempotent { sample_master with use_state_records := true } "exe" none "t0"
     (by decide) rfl ⟨sample_task, by decide, rfl⟩⟩

/-- A master that submitted the explicit name "a" twice without durable
state tracking. -/
def dup_master : PyMW_Master :=
  (submit_task (submit_task (init_master false) "exe" none (some "a")).2
    "exe" none (some "a")).2

/-- C8 (counterexample): without durable state tracking, `submit_task`
performs no duplicate-name check, so submitting the explicit name "a"
twice leaves two tasks named "a" in the registry — the names are not
pairwise distinct. -/
theorem registry_names_not_unique :
    registry_names dup_master = ["a", "a"] ∧ ¬ (registry_names dup_master).Nodup := by
  refine ⟨rfl, by decide⟩

/-- Helper for the amended C8: appending a task whose name was not found
in the registry preserves distinctness of the registry names. -/
theorem nodup_append_of_find?_eq_none (l : List PyMW_Task) (nm exe : String)
    (inp : Option String)
    (hf : l.find? (fun t => t.task_name == nm) = none)
    (hnd : (l.map PyMW_Task.task_name).Nodup) :
    ((l ++ [mk_task nm exe inp]).map PyMW_Task.task_name).Nodup := by
  rw [List.map_append]
  refine List.Nodup.append hnd (by simp [mk_task]) ?_
  intro x hx hx2
  simp only [List.map_cons, List.map_nil, List.mem_singleton, mk_task] at hx2
  rw [List.find?_eq_none] at hf
  obtain ⟨t, hmem, hteq⟩ := List.mem_map.mp hx
  have := hf t hmem
  rw [hteq, hx2] at this
  simp at this

/-- C8 (amended): when durable state tracking IS enabled, `submit_task`
preserves pairwise distinctness of the registry names — the lookup
either returns the existing task untouched or appends a name shown
absent.  (Without tracking, `registry_names_not_unique` shows the
property fails.) -/
theorem submit_task_preserves_unique_names (m : PyMW_Master) (exe : String)
    (inp : Option String) (new_task_name : Option String)
    (hrec : m.use_state_records = true)
    (hnd : (registry_names m).Nodup) :
    (registry_names (submit_task m exe inp new_task_name).2).Nodup := by
  have key : ∀ (m1 : PyMW_Master) (nm : String), m1.use_state_records = true →
      (registry_names m1).Nodup →
      (registry_names (submit_with_name m1 exe inp nm).2).Nodup := by
    intro m1 nm hrec1 hnd1
    unfold submit_with_name
    rw [hrec1, if_pos rfl]
    rcases hf : m1.submitted_tasks.find? (fun t => t.task_name == nm) with _ | t0
    · rw [hf]
      simpa [registry_names] using
        nodup_append_of_find?_eq_none m1.submitted_tasks nm exe inp hf
          (by simpa [registry_names] using hnd1)
    · rw [hf]
      simpa [registry_names] using hnd1
  unfold submit_task
  rcases htr : name_truthy new_task_name with _ | _
  · rw [if_neg (by simp [htr])]
    exact key { m with cur_task_num := m.cur_task_num + 1 } _ hrec hnd
  · rw [if_pos (by simp [htr])]
    exact key m _ hrec hnd

/-- Witness for `submit_task_preserves_unique_names`: an auto-named
submission to a fresh record-tracking master. -/
theorem submit_task_preserves_unique_names_witness :
    (init_master true).use_state_records = true ∧
    (registry_names (init_master true)).Nodup ∧
    (registry_names (submit_task (init_master true) "exe" none none).2).Nodup :=
  ⟨rfl, by decide,
   submit_task_preserves_unique_names (init_master true) "exe" none none rfl (by decide)⟩

/-- `appendAll` pushes its items at the end of the underlying list, in
order. -/
theorem appendAll_list {α : Type} (l : List α) (s : SyncList α) :
    (s.appendAll l).list = s.list ++ l := by
  induction l generalizing s with
  | nil => simp [SyncList.appendAll]
  | cons x xs ih =>
    show ((s.append x).appendAll xs).list = _
    rw [ih]
    simp [SyncList.append]

/-- Draining a `_SyncList` with as many `wait_pop` calls as it holds
items returns the items in reverse arrival order (each `list.pop()`
takes the end of the list). -/
theorem popN_full {α : Type} (n : Nat) (s : SyncList α) (h : s.list.length = n) :
    (SyncList.popN n s).1 = s.list.reverse := by
  induction n generalizing s with
  | zero =>
    have h0 : s.list = [] := List.length_eq_zero.mp h
    simp [SyncList.popN, h0]
  | succ k ih =>
    have hne : s.list ≠ [] := by
      intro h0
      rw [h0] at h
      simp at h
    obtain ⟨l2, x, hx⟩ : ∃ l2 x, s.list = l2 ++ [x] :=
      ⟨s.list.dropLast, s.list.getLast hne, (List.dropLast_concat_getLast hne).symm⟩
    have hpop : s.wait_pop = (some x, ⟨s.sem - 1, l2⟩) := by
      unfold SyncList.wait_pop
      rw [hx, List.getLast?_concat, List.dropLast_concat]
    have hlen2 : l2.length = k := by
      rw [hx] at h
      simpa using h
    show (match s.wait_pop.1 with
      | some v => v :: (SyncList.popN k s.wait_pop.2).1
      | none => (SyncList.popN k s.wait_pop.2).1) = s.list.reverse
    rw [hpop, hx, List.reverse_concat]
    simp only []
    rw [ih ⟨s.sem - 1, l2⟩ hlen2]

/-- C2: N appends of distinct items followed by N `wait_pop` calls
return exactly the appended items — a permutation of the input, still
without duplicates: nothing is lost and nothing is returned twice.
(The order is reversed: `wait_pop` serves the newest item first.) -/
theorem sync_queue_no_loss_no_dup {α : Type} (l : List α) (h : l.Nodup) :
    (SyncList.popN l.length (SyncList.appendAll SyncList.empty l)).1.Perm l ∧
    (SyncList.popN l.length (SyncList.appendAll SyncList.empty l)).1.Nodup := by
  have hlist : (SyncList.appendAll SyncList.empty l).list = l := by
    rw [appendAll_list]
    simp [SyncList.empty]
  have hfull := popN_full l.length (SyncList.appendAll SyncList.empty l) (by rw [hlist])
  rw [hfull, hlist]
  exact ⟨List.reverse_perm l, by simpa using h⟩

/-- Witness for `sync_queue_no_loss_no_dup`: three distinct items. -/
theorem sync_queue_no_loss_no_dup_witness :
    ([1, 2, 3] : List ℕ).Nodup ∧
    ((SyncList.popN ([1, 2, 3] : List ℕ).length
        (SyncList.appendAll SyncList.empty [1, 2, 3])).1.Perm [1, 2, 3] ∧
      (SyncList.popN ([1, 2, 3] : List ℕ).length
        (SyncList.appendAll SyncList.empty [1, 2, 3])).1.Nodup) :=
  ⟨by decide, sync_queue_no_loss_no_dup [1, 2, 3] (by decide)⟩

/-- The invariant of the concurrent `_SyncList`: the semaphore counter
plus the acquire tokens held by in-flight poppers never exceeds the
list length, and the list only holds items that were appended. -/
def SyncInv {α : Type} (s : SyncState α) : Prop :=
  s.sem + s.tokens ≤ s.list.length ∧ s.list ⊆ s.appended

/-- Every atomic `_SyncList` action preserves `SyncInv`. -/
theorem syncStep_preserves {α : Type} {s s2 : SyncState α} (hs : SyncStep s s2)
    (hinv : SyncInv s) : SyncInv s2 := by
  obtain ⟨h1, h2⟩ := hinv
  cases hs with
  | append x =>
    refine ⟨by simp; omega, ?_⟩
    intro y hy
    simp only [List.mem_append, List.mem_singleton] at hy ⊢
    rcases hy with hy | hy
    · exact Or.inl (h2 hy)
    · exact Or.inr hy
  | acquire h =>
    exact ⟨by simp; omega, h2⟩
  | popOk x h hx =>
    have hne : s.list ≠ [] := by
      intro h0
      rw [h0] at hx
      simp at hx
    have hpos : 1 ≤ s.list.length := by
      rcases hl : s.list with _ | ⟨y, ys⟩
      · exact absurd hl hne
      · simp
    refine ⟨?_, (List.dropLast_sublist s.list).subset.trans h2⟩
    simp only [List.length_dropLast]
    omega
  | popEmpty h he =>
    exfalso
    rw [he] at h1
    simp at h1
    omega

/-- `SyncInv` holds in every reachable state. -/
theorem syncReachable_inv {α : Type} (s : SyncState α) (h : SyncReachable s) : SyncInv s := by
  induction h with
  | refl => exact ⟨by simp [SyncState.init], by simp [SyncState.init]⟩
  | tail hab hstep ih => exact syncStep_preserves hstep ih

/-- C10: in every reachable state of a `_SyncList`, the semaphore count
never exceeds the list length; whenever a thread holds a successful
semaphore acquire the list is non-empty, so the locked `list.pop()`
cannot hit the empty-list `except` branch; and any value a pop can
return (the last list element) was previously passed to `append`. -/
theorem sync_semaphore_safety {α : Type} (s : SyncState α) (h : SyncReachable s) :
    s.sem ≤ s.list.length ∧
    s.sem + s.tokens ≤ s.list.length ∧
    (0 < s.tokens → s.list ≠ []) ∧
    (∀ x, s.list.getLast? = some x → x ∈ s.appended) := by
  obtain ⟨h1, h2⟩ := syncReachable_inv s h
  refine ⟨by omega, h1, ?_, ?_⟩
  · intro ht h0
    rw [h0] at h1
    simp at h1
    omega
  · intro x hx
    exact h2 (List.mem_of_getLast?_eq_some hx)

/-- A reachable `_SyncList` state: one item appended, nothing popped. -/
def sample_sync : SyncState ℕ := { sem := 1, tokens := 0, list := [5], appended := [5] }

/-- Witness for `sync_semaphore_safety`: the state reached by a single
append. -/
theorem sync_semaphore_safety_witness :
    SyncReachable sample_sync ∧
    (sample_sync.sem ≤ sample_sync.list.length ∧
      sample_sync.sem + sample_sync.tokens ≤ sample_sync.list.length ∧
      (0 < sample_sync.tokens → sample_sync.list ≠ []) ∧
      (∀ x, sample_sync.list.getLast? = some x → x ∈ sample_sync.appended)) :=
  ⟨Relation.ReflTransGen.single (SyncStep.append SyncState.init 5),
   sync_semaphore_safety sample_sync
     (Relation.ReflTransGen.single (SyncStep.append SyncState.init 5))⟩

end PyMW
